import Mathlib

/-!
Verification of the filter-query schema builder
(`FilterQuerySchemaBuilder`, `createTypedComparisonSchema`,
`createFilterSchema`, `applyReplacements`, `setNestedValue`).

The embedding models JavaScript values submitted to the built Zod schema as
the inductive type `Value`.  JavaScript objects are association lists of
key/value pairs (JS object keys are unique; entries are kept in insertion
order, as `Object.entries` / `Object.keys` enumerate them).  `Value.date`
stands for a value accepted by the date validator as a native `Date`
instance (so its JS `typeof` is `"object"` and it has no own enumerable
properties); the exact ISO-8601 date-string grammar is an external
collaborator of the core and is not modelled, so a `Value.str` operand is
never a date value in this model.
-/

namespace FilterQuerySchema

/-- A JavaScript value, as seen by the validator.  `null` is JS `null`;
`obj` is a plain object given by its ordered key/value entries. -/
inductive Value where
  | str (s : String)
  | num (n : Int)
  | bool (b : Bool)
  | date (d : Nat)
  | null
  | arr (items : List Value)
  | obj (entries : List (String × Value))

/-- The four declarable field value types (`src/types/field-type.ts`). -/
inductive FieldType where
  | string
  | number
  | boolean
  | date
deriving DecidableEq

/-- Rewrite rule attached to a field declaration: none, a dotted destination
path (string replacement), or a caller-supplied callback receiving the
field name, the operator and the operand and returning a partial output
object (`src/types/field-options.ts`). -/
inductive Replacement where
  | none
  | path (p : String)
  | callback (f : String → String → Value → List (String × Value))

/-- One registered field: name, value type, capability flags and rewrite
rule (`FieldOptions` in `src/types/field-options.ts`). -/
structure FieldSpec where
  field : String
  type : FieldType
  array : Bool := false
  fulltext : Bool := false
  replacement : Replacement := .none

/-- The structural limits (`FilterOptions`), with their documented defaults.
The data model of the spec declares them as non-negative integers, hence `Nat`. -/
structure Limits where
  maxDepth : Nat := 5
  maxConditions : Nat := 20
  maxOrBranches : Nat := 5
  maxArrayLength : Nat := 100

/-- The operator whitelist of the `isOperator` type guard in the builder
source (note it contains neither `$like` nor `$ilike`). -/
def operatorList : List String :=
  ["$eq", "$ne", "$lt", "$gt", "$lte", "$gte", "$in", "$nin",
   "$fulltext", "$contains", "$overlap"]

/-- Type guard `isOperator` from the builder source. -/
def isOperator (key : String) : Bool :=
  operatorList.contains key

/-- JS `value === null`. -/
def isNull : Value → Bool
  | .null => true
  | _ => false

/-- Model of `getValueSchema` from the builder source: the per-type primitive value
check.  `date` accepts date values (see the module docstring for the
abstraction of the ISO-string branches of the union in the source). -/
def getValueSchema : FieldType → Value → Bool
  | .string, .str _ => true
  | .number, .num _ => true
  | .boolean, .bool _ => true
  | .date, .date _ => true
  | _, _ => false

/-- The operator-object shape built by `createTypedComparisonSchema`
(`comparisonFields` in the source): for a legal operator key, the check run
on its operand; for any other key, `none` (the object schema is `.strict()`,
so an unrecognized key rejects).  The branches mirror the insertions in the source: `$eq`/`$ne` (value or null), the `$gt`/`$gte`/`$lt`/`$lte`
family only for `number`/`date`, `$in`/`$nin` (arrays of value-or-null of
length at most `maxArrayLength`), `$contains`/`$overlap` only when the
field is declared `array` (non-null elements), and `$fulltext` only when
the field is declared `fulltext`. -/
def comparisonOperandSchema (t : FieldType) (maxArrayLength : Nat)
    (arrayOpt fulltextOpt : Bool) (key : String) : Option (Value → Bool) :=
  if key = "$eq" ∨ key = "$ne" then
    some (fun v => getValueSchema t v || isNull v)
  else if (t = .number ∨ t = .date) ∧
      (key = "$gt" ∨ key = "$gte" ∨ key = "$lt" ∨ key = "$lte") then
    some (getValueSchema t)
  else if key = "$in" ∨ key = "$nin" then
    some (fun v =>
      match v with
      | .arr xs =>
          xs.all (fun x => getValueSchema t x || isNull x) &&
            decide (xs.length ≤ maxArrayLength)
      | _ => false)
  else if arrayOpt = true ∧ (key = "$contains" ∨ key = "$overlap") then
    some (fun v =>
      match v with
      | .arr xs =>
          xs.all (getValueSchema t) && decide (xs.length ≤ maxArrayLength)
      | _ => false)
  else if fulltextOpt = true ∧ key = "$fulltext" then
    some (getValueSchema t)
  else
    none

/-- The `.strict()` operator-object branch of the comparison union: a plain
object each of whose present keys is a recognized operator with a valid
operand.  Non-objects are rejected by this branch. -/
def checkComparisonObject (t : FieldType) (maxArrayLength : Nat)
    (arrayOpt fulltextOpt : Bool) : Value → Bool :=
  fun v =>
    match v with
    | .obj entries =>
        entries.all fun e =>
          match comparisonOperandSchema t maxArrayLength arrayOpt fulltextOpt e.1 with
          | some check => check e.2
          | none => false
    | _ => false

/-- Model of `createTypedComparisonSchema` from the builder source: the value-side
schema of one field.  A field value is a bare value of the declared type,
`null`, or a strict operator object. -/
def createTypedComparisonSchema (t : FieldType) (maxArrayLength : Nat)
    (arrayOpt fulltextOpt : Bool) : Value → Bool :=
  fun v =>
    getValueSchema t v || isNull v ||
      checkComparisonObject t maxArrayLength arrayOpt fulltextOpt v

/-- Lookup of a registered field by input key.  The builder keeps field
declarations in a `Map` keyed by name, so a later `addField` with the same
name overwrites an earlier one: the last declaration wins. -/
def findField : List FieldSpec → String → Option FieldSpec
  | [], _ => none
  | f :: rest, key =>
      match findField rest key with
      | some g => some g
      | none => if f.field = key then some f else none

/-- Validation of one `key : value` entry against the registered field
schemas (`fieldSchemas` in the source): the key must be a registered field
name and the value must satisfy the comparison schema of that field. -/
def checkFieldEntry (fields : List FieldSpec) (L : Limits)
    (key : String) (value : Value) : Bool :=
  match findField fields key with
  | some f => createTypedComparisonSchema f.type L.maxArrayLength f.array f.fulltext value
  | none => false

/-- Whether a key is one of the three logical combinators, exactly the
list `["$and", "$or", "$not"]` used by the condition-count refine in the source. -/
def isCombinatorKey (key : String) : Bool :=
  key = "$and" || key = "$or" || key = "$not"

/-- The schema built by `createFilterSchema` at the depth ceiling
(`currentDepth >= maxDepth`): a strict object of field conditions only,
refined so that the number of present keys is at most `maxConditions`. -/
def checkBase (fields : List FieldSpec) (L : Limits) : Value → Bool :=
  fun v =>
    match v with
    | .obj entries =>
        entries.all (fun e => checkFieldEntry fields L e.1 e.2) &&
          decide (entries.length ≤ L.maxConditions)
    | _ => false

/-- One entry of the schema built by `createFilterSchema` below the
ceiling, where `sub` is the schema for the next nesting level.  The field
schemas are spread after the three combinator keys in the object literal
of the source, so a registered field whose name collides with a combinator
shadows the combinator; that is why the registered-field lookup is tried
first. -/
def checkStepEntry (fields : List FieldSpec) (L : Limits)
    (sub : Value → Bool) (e : String × Value) : Bool :=
  match findField fields e.1 with
  | some f => createTypedComparisonSchema f.type L.maxArrayLength f.array f.fulltext e.2
  | none =>
      if e.1 = "$and" then
        match e.2 with
        | .arr items => items.all sub
        | _ => false
      else if e.1 = "$or" then
        match e.2 with
        | .arr items => decide (items.length ≤ L.maxOrBranches) && items.all sub
        | _ => false
      else if e.1 = "$not" then sub e.2
      else false

/-- The schema built by `createFilterSchema` below the ceiling: a strict
object whose keys are `$and` (array of sub-documents), `$or` (array of at
most `maxOrBranches` sub-documents), `$not` (one sub-document) or
registered fields, refined so that the number of present non-combinator
keys is at most `maxConditions`. -/
def checkStep (fields : List FieldSpec) (L : Limits)
    (sub : Value → Bool) : Value → Bool :=
  fun v =>
    match v with
    | .obj entries =>
        entries.all (checkStepEntry fields L sub) &&
          decide ((entries.filter fun e => !isCombinatorKey e.1).length ≤ L.maxConditions)
    | _ => false

/-- Model of `createFilterSchema` from the builder source, as the acceptance
predicate of the schema it returns for nesting level `currentDepth`:
at `currentDepth >= maxDepth` only field conditions are allowed, below the
ceiling the three combinators recurse into level `currentDepth + 1`. -/
def createFilterSchema (fields : List FieldSpec) (L : Limits)
    (currentDepth : Nat) : Value → Bool :=
  if L.maxDepth ≤ currentDepth then
    checkBase fields L
  else
    checkStep fields L (createFilterSchema fields L (currentDepth + 1))
termination_by L.maxDepth - currentDepth
decreasing_by omega

/-- Proof-side reformulation of `createFilterSchema`, structurally
recursive in the remaining depth `maxDepth - currentDepth`. -/
def checkRemaining (fields : List FieldSpec) (L : Limits) : Nat → Value → Bool
  | 0 => checkBase fields L
  | r + 1 => checkStep fields L (checkRemaining fields L r)

/-- The schema at level `d` is the remaining-depth checker at fuel
`maxDepth - d`. -/
theorem createFilterSchema_eq (fields : List FieldSpec) (L : Limits) (d : Nat) :
    createFilterSchema fields L d = checkRemaining fields L (L.maxDepth - d) := by
  generalize h : L.maxDepth - d = r
  induction r generalizing d with
  | zero =>
      unfold createFilterSchema
      rw [if_pos (by omega)]
      rfl
  | succ r ih =>
      unfold createFilterSchema
      rw [if_neg (by omega), ih (d + 1) (by omega)]
      rfl

/-- JS property assignment `obj[key] = v` on an object given by its ordered
entries: an existing key keeps its position and gets the new value, a new
key is appended. -/
def objSet : List (String × Value) → String → Value → List (String × Value)
  | [], key, v => [(key, v)]
  | e :: rest, key, v =>
      if e.1 = key then (key, v) :: rest else e :: objSet rest key v

/-- JS property read `obj[key]` (`none` when the key is absent). -/
def objGet : List (String × Value) → String → Option Value
  | [], _ => none
  | e :: rest, key => if e.1 = key then some e.2 else objGet rest key

/-- JS `Object.assign(dst, src)`: every entry of `src` is assigned into
`dst` in order, later assignments overwriting earlier keys. -/
def objAssign (dst src : List (String × Value)) : List (String × Value) :=
  src.foldl (fun d e => objSet d e.1 e.2) dst

/-- The loop of `setNestedValue` (`src/utils/set-nested-value.ts`) on the
already-split path: for every intermediate part, descend into the existing
value when it is a plain object and otherwise (missing key, primitive or
`null`) replace it by a fresh empty object; assign the value at the last
part.  (`String.splitOn` never returns `[]`, so the `[]` case is
unreachable.) -/
def setNestedParts :
    List (String × Value) → List String → Value → List (String × Value)
  | kvs, [], _ => kvs
  | kvs, [last], v => objSet kvs last v
  | kvs, part :: rest, v =>
      let child : List (String × Value) :=
        match objGet kvs part with
        | some (.obj ckvs) => ckvs
        | _ => []
      objSet kvs part (.obj (setNestedParts child rest v))

/-- Accumulating loop of `splitDot`. -/
def splitDotAux : List Char → String → List String
  | [], cur => [cur]
  | c :: cs, cur =>
      if c = '.' then cur :: splitDotAux cs "" else splitDotAux cs (cur.push c)

/-- JS `path.split(".")`: the dot-separated parts of a path, in order.  The
result is never empty (an empty path yields `[""]`). -/
def splitDot (path : String) : List String :=
  splitDotAux path.toList ""

/-- Model of `setNestedValue` from `src/utils/set-nested-value.ts`, as a pure
function on the entry list of the destination object. -/
def setNestedValue (kvs : List (String × Value)) (path : String) (v : Value) :
    List (String × Value) :=
  setNestedParts kvs (splitDot path) v

/-- The test `fieldValue === null || typeof fieldValue !== "object"` in
`parseFieldValue`: JS primitives (string, number, boolean) and `null`.
Arrays, plain objects and `Date` instances all have `typeof "object"`. -/
def isBarePrimitive : Value → Bool
  | .null => true
  | .str _ => true
  | .num _ => true
  | .bool _ => true
  | _ => false

/-- JS `Object.entries`: the own enumerable entries of a value.  Plain
objects yield their entries, arrays yield index-keyed entries, and every
other value (including `Date` instances, which keep their data in internal
slots) yields no entries. -/
def entriesOfValue : Value → List (String × Value)
  | .obj kvs => kvs
  | .arr items => (List.range items.length).zip items |>.map fun p => (toString p.1, p.2)
  | _ => []

/-- Model of `parseFieldValue` from the builder source: the `(operator, value)`
pairs of the value of a matched field.  A bare primitive or `null` is the single
implicit pair `($eq, value)`; any other value is enumerated with
`Object.entries` and filtered to recognized operator keys. -/
def parseFieldValue (fieldValue : Value) : List (String × Value) :=
  if isBarePrimitive fieldValue then [("$eq", fieldValue)]
  else (entriesOfValue fieldValue).filter fun e => isOperator e.1

/-- The test `typeof value === "object" && value !== null` guarding the
`$not` branch of `applyReplacements`. -/
def isObjectTypeof : Value → Bool
  | .obj _ => true
  | .arr _ => true
  | .date _ => true
  | _ => false

/-- The rewrite rule registered for an input key, combining the
`stringReplacementMap` and `callbackReplacementMap` lookups of the source (both are built
from the deduplicated field map, so the last declaration for a name wins). -/
def replacementFor (fields : List FieldSpec) (key : String) : Replacement :=
  match findField fields key with
  | some f => f.replacement
  | none => .none

/-- The field-condition branch of `applyReplacements`: a callback rewrite
invokes the callback once per `(operator, value)` pair of
`parseFieldValue` and shallow-merges each returned partial document into
the result in encounter order; a dotted-path rewrite writes the original
un-decomposed operand at the destination path; a field with no rewrite is
copied unchanged.  (The source tests the callback map before the string
map.) -/
def fieldStep (fields : List FieldSpec) (result : List (String × Value))
    (key : String) (value : Value) : List (String × Value) :=
  match replacementFor fields key with
  | .callback f =>
      (parseFieldValue value).foldl (fun res p => objAssign res (f key p.1 p.2)) result
  | .path p => setNestedValue result p value
  | .none => objSet result key value

mutual

/-- Model of `applyReplacements` from the builder source.  Its TypeScript domain is
`Record<string, unknown>`; it is only ever invoked on (sub-)documents that
the schema has already accepted, which are plain objects, so non-object
values are outside its domain and mapped to the empty object here. -/
def applyReplacements (fields : List FieldSpec) : Value → Value
  | .obj kvs => .obj (applyEntries fields kvs [])
  | _ => .obj []

/-- The entry loop of `applyReplacements`, threading the `result` object:
`$and`/`$or` holding arrays are rebuilt element-wise recursively, `$not`
holding an object is rewritten recursively, and every other entry goes
through the field-condition branch `fieldStep`. -/
def applyEntries (fields : List FieldSpec) :
    List (String × Value) → List (String × Value) → List (String × Value)
  | [], result => result
  | (key, value) :: rest, result =>
      let nextResult : List (String × Value) :=
        if key = "$and" then
          match value with
          | .arr items => objSet result key (.arr (applyList fields items))
          | _ => fieldStep fields result key value
        else if key = "$or" then
          match value with
          | .arr items => objSet result key (.arr (applyList fields items))
          | _ => fieldStep fields result key value
        else if key = "$not" then
          if isObjectTypeof value then objSet result key (applyReplacements fields value)
          else fieldStep fields result key value
        else fieldStep fields result key value
      applyEntries fields rest nextResult

/-- Model of `value.map((item) => applyReplacements(item))` on a combinator array. -/
def applyList (fields : List FieldSpec) : List Value → List Value
  | [] => []
  | v :: vs => applyReplacements fields v :: applyList fields vs

end

/-- JS `Map.set` on the field map of the builder: a name already present keeps
its position and gets the new declaration; a new name is appended. -/
def mapSetField (acc : List FieldSpec) (f : FieldSpec) : List FieldSpec :=
  if acc.any (fun g => g.field = f.field) then
    acc.map fun g => if g.field = f.field then f else g
  else
    acc ++ [f]

/-- The field `Map` of the builder after all `addField` calls: registrations are
inserted in order, a repeated name overwriting the earlier declaration (the
last declaration for a name wins). -/
def dedupFields (fields : List FieldSpec) : List FieldSpec :=
  fields.foldl mapSetField []

/-- Whether a rewrite rule is present. -/
def hasRewrite : Replacement → Bool
  | .none => false
  | _ => true

/-- Model of `hasTransforms` in `build`: at least one registered field (after
deduplication) declares a string or callback replacement. -/
def hasTransforms (fields : List FieldSpec) : Bool :=
  (dedupFields fields).any fun f => hasRewrite f.replacement

/-- The parse pipeline of the schema returned by `build`: validate the
document at level 0 and, when any rewrite rule is registered, transform the
accepted document with `applyReplacements`. -/
def parseFilterQuery (fields : List FieldSpec) (L : Limits) (doc : Value) :
    Option Value :=
  if createFilterSchema fields L 0 doc then
    if hasTransforms fields then some (applyReplacements fields doc) else some doc
  else
    none

/-! Helper notions and lemmas shared by the claim theorems. -/

/-- A registry none of whose field names collides with a combinator key.
The data model of the spec keeps registered field names and the three
combinators disjoint; a field literally named `$and`, `$or` or `$not`
would shadow the combinator in the built object schema. -/
def noCombinatorFields (fields : List FieldSpec) : Bool :=
  fields.all fun f => !isCombinatorKey f.field

/-- One layer of `$and` wrapping around a document. -/
def wrapAnd (D : Value) : Value := .obj [("$and", .arr [D])]

/-- One layer of `$or` wrapping around a document. -/
def wrapOr (D : Value) : Value := .obj [("$or", .arr [D])]

/-- One layer of `$not` wrapping around a document. -/
def wrapNot (D : Value) : Value := .obj [("$not", D)]

/-- Iterated wrapping: `k` layers of `$and` around a document. -/
def wrapAndN : Nat → Value → Value
  | 0, D => D
  | k + 1, D => wrapAnd (wrapAndN k D)

theorem findField_some_spec (fields : List FieldSpec) (key : String) (f : FieldSpec)
    (h : findField fields key = some f) : f ∈ fields ∧ f.field = key := by
  induction fields with
  | nil => simp [findField] at h
  | cons g rest ih =>
      simp only [findField] at h
      cases hrest : findField rest key with
      | some gg =>
          rw [hrest] at h
          cases h
          have := ih hrest
          exact ⟨List.mem_cons_of_mem _ this.1, this.2⟩
      | none =>
          rw [hrest] at h
          by_cases hg : g.field = key
          · rw [if_pos hg] at h
            cases h
            exact ⟨List.mem_cons_self _ _, hg⟩
          · rw [if_neg hg] at h
            cases h

theorem findField_combinator_none (fields : List FieldSpec) (key : String)
    (hnc : noCombinatorFields fields = true) (hkey : isCombinatorKey key = true) :
    findField fields key = none := by
  cases h : findField fields key with
  | none => rfl
  | some f =>
      obtain ⟨hmem, hfield⟩ := findField_some_spec fields key f h
      have hall := List.all_eq_true.mp hnc f hmem
      rw [hfield, hkey] at hall
      cases hall

theorem checkRemaining_empty (fields : List FieldSpec) (L : Limits) (r : Nat) :
    checkRemaining fields L r (.obj []) = true := by
  cases r with
  | zero => simp [checkRemaining, checkBase]
  | succ r => simp [checkRemaining, checkStep]

theorem checkRemaining_andArray (fields : List FieldSpec) (L : Limits) (r : Nat)
    (docs : List Value) (h : findField fields "$and" = none) :
    checkRemaining fields L (r + 1) (.obj [("$and", .arr docs)]) =
      docs.all (checkRemaining fields L r) := by
  simp +decide [checkRemaining, checkStep, checkStepEntry, isCombinatorKey, h]

theorem checkRemaining_orArray (fields : List FieldSpec) (L : Limits) (r : Nat)
    (docs : List Value) (h : findField fields "$or" = none) :
    checkRemaining fields L (r + 1) (.obj [("$or", .arr docs)]) =
      (decide (docs.length ≤ L.maxOrBranches) && docs.all (checkRemaining fields L r)) := by
  simp +decide [checkRemaining, checkStep, checkStepEntry, isCombinatorKey, h]

theorem checkRemaining_notObj (fields : List FieldSpec) (L : Limits) (r : Nat)
    (D : Value) (h : findField fields "$not" = none) :
    checkRemaining fields L (r + 1) (.obj [("$not", D)]) =
      checkRemaining fields L r D := by
  simp +decide [checkRemaining, checkStep, checkStepEntry, isCombinatorKey, h]

theorem checkRemaining_wrapAndN (fields : List FieldSpec) (L : Limits)
    (h : findField fields "$and" = none) :
    ∀ (k r : Nat) (D : Value),
      checkRemaining fields L (r + k) (wrapAndN k D) = checkRemaining fields L r D := by
  intro k
  induction k with
  | zero => intro r D; rfl
  | succ k ih =>
      intro r D
      have harr := checkRemaining_andArray fields L (r + k) [wrapAndN k D] h
      simp only [List.all_cons, List.all_nil, Bool.and_true] at harr
      calc checkRemaining fields L (r + (k + 1)) (wrapAndN (k + 1) D)
          = checkRemaining fields L ((r + k) + 1) (wrapAnd (wrapAndN k D)) := by
            rw [Nat.add_succ]; rfl
        _ = checkRemaining fields L (r + k) (wrapAndN k D) := harr
        _ = checkRemaining fields L r D := ih r D

theorem wrapAndN_succ_inner : ∀ (k : Nat) (D : Value),
    wrapAndN (k + 1) D = wrapAndN k (wrapAnd D) := by
  intro k
  induction k with
  | zero => intro D; rfl
  | succ k ih => intro D; show wrapAnd (wrapAndN (k + 1) D) = _; rw [ih]; rfl

theorem getValueSchema_obj (t : FieldType) (entries : List (String × Value)) :
    getValueSchema t (.obj entries) = false := by
  cases t <;> rfl

theorem getValueSchema_null (t : FieldType) : getValueSchema t .null = false := by
  cases t <;> rfl

theorem getValueSchema_arr (t : FieldType) (items : List Value) :
    getValueSchema t (.arr items) = false := by
  cases t <;> rfl

theorem fulltext_off_rejected (t : FieldType) (maxLen : Nat) (arrayOpt : Bool) (v : Value) :
    createTypedComparisonSchema t maxLen arrayOpt false (.obj [("$fulltext", v)]) = false := by
  simp +decide [createTypedComparisonSchema, checkComparisonObject, comparisonOperandSchema,
    getValueSchema_obj, isNull]

/-- C2: a field declared `number` or `date` accepts `$gt`, `$gte`, `$lt`,
`$lte` exactly with a non-null operand of the declared type (a `null`
operand is rejected), while for a field declared `string` or `boolean`
these four operators are rejected regardless of the operand supplied. -/
theorem c2_typed_comparison_operators (t : FieldType) (maxLen : Nat)
    (arrayOpt fulltextOpt : Bool) (op : String) (v : Value)
    (hop : op = "$gt" ∨ op = "$gte" ∨ op = "$lt" ∨ op = "$lte") :
    ((t = .number ∨ t = .date) →
      createTypedComparisonSchema t maxLen arrayOpt fulltextOpt (.obj [(op, v)]) =
          getValueSchema t v ∧
        createTypedComparisonSchema t maxLen arrayOpt fulltextOpt (.obj [(op, .null)]) =
          false) ∧
    ((t = .string ∨ t = .boolean) →
      createTypedComparisonSchema t maxLen arrayOpt fulltextOpt (.obj [(op, v)]) = false) := by
  constructor
  · rintro (rfl | rfl) <;> rcases hop with rfl | rfl | rfl | rfl <;>
      exact ⟨by simp +decide [createTypedComparisonSchema, checkComparisonObject,
          comparisonOperandSchema, getValueSchema_obj, isNull],
        by simp +decide [createTypedComparisonSchema, checkComparisonObject,
          comparisonOperandSchema, getValueSchema_obj, getValueSchema_null, isNull]⟩
  · rintro (rfl | rfl) <;> rcases hop with rfl | rfl | rfl | rfl <;>
      simp +decide [createTypedComparisonSchema, checkComparisonObject,
        comparisonOperandSchema, getValueSchema_obj, isNull]

/-- Witness for C2 at concrete inputs: on a `number` field, `$gt` accepts
the operand `5` and rejects `null`; on a `string` field, `$gt` is rejected
even with a well-formed operand. -/
theorem c2_typed_comparison_operators_witness :
    ("$gt" = "$gt" ∨ "$gt" = "$gte" ∨ "$gt" = "$lt" ∨ "$gt" = "$lte") ∧
    (createTypedComparisonSchema .number 100 false false (.obj [("$gt", .num 5)]) =
        getValueSchema .number (.num 5) ∧
      createTypedComparisonSchema .number 100 false false (.obj [("$gt", .null)]) = false) ∧
    createTypedComparisonSchema .string 100 false false (.obj [("$gt", .str "a")]) = false := by
  refine ⟨by decide, ?_, ?_⟩
  · exact (c2_typed_comparison_operators .number 100 false false "$gt" (.num 5)
      (by decide)).1 (Or.inl rfl)
  · exact (c2_typed_comparison_operators .string 100 false false "$gt" (.str "a")
      (by decide)).2 (Or.inl rfl)

/-- C4: array operands of `$in`/`$nin` are accepted exactly when every
element is a value of the declared type or `null` and the length is at
most `maxArrayLength`; `$contains`/`$overlap` exist only on fields
declared `array` and require non-null elements of the declared type with
the same length bound; length `maxArrayLength + 1` is rejected for all
four operators (exact boundary). -/
theorem c4_array_operand_bounds (t : FieldType) (maxLen : Nat)
    (arrayOpt fulltextOpt : Bool) (xs : List Value) :
    (∀ op, op = "$in" ∨ op = "$nin" →
      createTypedComparisonSchema t maxLen arrayOpt fulltextOpt (.obj [(op, .arr xs)]) =
        (xs.all (fun x => getValueSchema t x || isNull x) && decide (xs.length ≤ maxLen))) ∧
    (arrayOpt = true →
      ∀ op, op = "$contains" ∨ op = "$overlap" →
        createTypedComparisonSchema t maxLen arrayOpt fulltextOpt (.obj [(op, .arr xs)]) =
          (xs.all (getValueSchema t) && decide (xs.length ≤ maxLen))) ∧
    (arrayOpt = false →
      ∀ op w, op = "$contains" ∨ op = "$overlap" →
        createTypedComparisonSchema t maxLen arrayOpt fulltextOpt (.obj [(op, w)]) = false) ∧
    (xs.length = maxLen + 1 →
      ∀ op, op = "$in" ∨ op = "$nin" ∨ op = "$contains" ∨ op = "$overlap" →
        createTypedComparisonSchema t maxLen arrayOpt fulltextOpt (.obj [(op, .arr xs)]) =
          false) := by
  refine ⟨?_, ?_, ?_, ?_⟩
  · rintro op (rfl | rfl) <;>
      simp +decide [createTypedComparisonSchema, checkComparisonObject,
        comparisonOperandSchema, getValueSchema_obj, isNull]
  · rintro rfl op (rfl | rfl) <;>
      simp +decide [createTypedComparisonSchema, checkComparisonObject,
        comparisonOperandSchema, getValueSchema_obj, isNull]
  · rintro rfl op w (rfl | rfl) <;>
      simp +decide [createTypedComparisonSchema, checkComparisonObject,
        comparisonOperandSchema, getValueSchema_obj, isNull]
  · intro hlen op hop
    have hfail : decide (xs.length ≤ maxLen) = false := by
      rw [hlen]; simp
    rcases hop with rfl | rfl | rfl | rfl
    · simp +decide [createTypedComparisonSchema, checkComparisonObject,
        comparisonOperandSchema, getValueSchema_obj, isNull, hfail]
    · simp +decide [createTypedComparisonSchema, checkComparisonObject,
        comparisonOperandSchema, getValueSchema_obj, isNull, hfail]
    · cases arrayOpt <;>
        simp +decide [createTypedComparisonSchema, checkComparisonObject,
          comparisonOperandSchema, getValueSchema_obj, isNull, hfail]
    · cases arrayOpt <;>
        simp +decide [createTypedComparisonSchema, checkComparisonObject,
          comparisonOperandSchema, getValueSchema_obj, isNull, hfail]

/-- Witness for C4 at concrete inputs: with `maxArrayLength = 2`, `$in`
accepts `[1, null]` (length 2, elements typed-or-null), and `[1, 2, 3]`
(length 3 = maxArrayLength + 1) is rejected. -/
theorem c4_array_operand_bounds_witness :
    ("$in" = "$in" ∨ "$in" = "$nin") ∧
    (createTypedComparisonSchema .number 2 false false (.obj [("$in", .arr [.num 1, .null])]) =
      ([Value.num 1, Value.null].all (fun x => getValueSchema .number x || isNull x) &&
        decide ([Value.num 1, Value.null].length ≤ 2))) ∧
    ([Value.num 1, Value.num 2, Value.num 3].length = 2 + 1) ∧
    (createTypedComparisonSchema .number 2 false false
      (.obj [("$in", .arr [.num 1, .num 2, .num 3])]) = false) := by
  refine ⟨by decide, ?_, by decide, ?_⟩
  · exact (c4_array_operand_bounds .number 2 false false [.num 1, .null]).1 "$in" (Or.inl rfl)
  · exact (c4_array_operand_bounds .number 2 false false
      [.num 1, .num 2, .num 3]).2.2.2 (by decide) "$in" (Or.inl rfl)

/-- C9: `$fulltext` is accepted exactly on fields declared with the
`fulltext` flag — which the declaration types restrict to `string` fields —
with a non-null string operand; without the flag, or on a `number` field
(whose declaration cannot carry the flag), an operator object containing
`$fulltext` is rejected; the unsupported operator `$like` is rejected on
every field. -/
theorem c9_fulltext_operator (t : FieldType) (maxLen : Nat) (arrayOpt : Bool) (v : Value) :
    (createTypedComparisonSchema .string maxLen arrayOpt true (.obj [("$fulltext", v)]) =
        getValueSchema .string v) ∧
    (createTypedComparisonSchema t maxLen arrayOpt false (.obj [("$fulltext", v)]) = false) ∧
    (∀ f : FieldSpec, (f.fulltext = true → f.type = .string) → f.type = .number →
      createTypedComparisonSchema f.type maxLen f.array f.fulltext
        (.obj [("$fulltext", v)]) = false) ∧
    (∀ fulltextOpt : Bool,
      createTypedComparisonSchema t maxLen arrayOpt fulltextOpt (.obj [("$like", v)]) =
        false) := by
  refine ⟨?_, fulltext_off_rejected t maxLen arrayOpt v, ?_, ?_⟩
  · simp +decide [createTypedComparisonSchema, checkComparisonObject,
      comparisonOperandSchema, getValueSchema_obj, isNull]
  · intro f hwf htype
    cases hft : f.fulltext with
    | true => rw [hwf hft] at htype; cases htype
    | false => rw [htype]; exact fulltext_off_rejected .number maxLen f.array v
  · intro fulltextOpt
    simp +decide [createTypedComparisonSchema, checkComparisonObject,
      comparisonOperandSchema, getValueSchema_obj, isNull]

/-- Witness for C9 at concrete inputs: the `number` field `age` (which
cannot declare `fulltext`) rejects `{ $fulltext: "x" }`, and `$like` is
rejected on a fulltext-enabled string field. -/
theorem c9_fulltext_operator_witness :
    (({ field := "age", type := .number } : FieldSpec).fulltext = true →
      ({ field := "age", type := .number } : FieldSpec).type = .string) ∧
    (({ field := "age", type := .number } : FieldSpec).type = .number) ∧
    (createTypedComparisonSchema ({ field := "age", type := .number } : FieldSpec).type 100
      ({ field := "age", type := .number } : FieldSpec).array
      ({ field := "age", type := .number } : FieldSpec).fulltext
      (.obj [("$fulltext", .str "x")]) = false) ∧
    (createTypedComparisonSchema .string 100 false true (.obj [("$like", .str "abc")]) =
      false) := by
  refine ⟨(fun h => by cases h), rfl, ?_, ?_⟩
  · exact (c9_fulltext_operator .number 100 false (.str "x")).2.2.1
      { field := "age", type := .number } (by intro h; cases h) rfl
  · exact (c9_fulltext_operator .string 100 false (.str "abc")).2.2.2 true

theorem unregistered_key_rejected (fields : List FieldSpec) (L : Limits) (d : Nat)
    (key : String) (value : Value) (entries : List (String × Value))
    (hmem : (key, value) ∈ entries) (hff : findField fields key = none)
    (hcase : L.maxDepth ≤ d ∨ (key ≠ "$and" ∧ key ≠ "$or" ∧ key ≠ "$not")) :
    createFilterSchema fields L d (.obj entries) = false := by
  rw [createFilterSchema_eq]
  cases hr : L.maxDepth - d with
  | zero =>
      simp only [checkRemaining, checkBase]
      have hall : entries.all (fun e => checkFieldEntry fields L e.1 e.2) = false :=
        List.all_eq_false.mpr ⟨(key, value), hmem, by simp [checkFieldEntry, hff]⟩
      rw [hall]
      simp
  | succ r =>
      have hkey : key ≠ "$and" ∧ key ≠ "$or" ∧ key ≠ "$not" := by
        rcases hcase with hle | hk
        · exfalso; omega
        · exact hk
      simp only [checkRemaining, checkStep]
      have hall :
          entries.all (checkStepEntry fields L (checkRemaining fields L r)) = false :=
        List.all_eq_false.mpr ⟨(key, value), hmem, by
          simp [checkStepEntry, hff, hkey.1, hkey.2.1, hkey.2.2]⟩
      rw [hall]
      simp

/-- C1 as frozen is refuted at two configurations its universal
quantification over registries and limits admits: with `maxOrBranches = 0`
the empty document is accepted at depth `1 < maxDepth = 2` but its `$or`
wrapping is rejected at depth 0, and a registered field literally named
`$and` shadows the combinator (the field schemas are spread after the
combinator keys), so the `$and` wrapping of an accepted document is
rejected. -/
theorem c1_counterexample :
    (createFilterSchema [] { maxDepth := 2, maxOrBranches := 0 } 1 (.obj []) = true ∧
      createFilterSchema [] { maxDepth := 2, maxOrBranches := 0 } 0 (wrapOr (.obj [])) =
        false) ∧
    (createFilterSchema [{ field := "$and", type := .string }] { maxDepth := 2 } 1
        (.obj []) = true ∧
      createFilterSchema [{ field := "$and", type := .string }] { maxDepth := 2 } 0
        (wrapAnd (.obj [])) = false) := by
  refine ⟨⟨?_, ?_⟩, ?_, ?_⟩ <;> (rw [createFilterSchema_eq]; decide)

/-- C1 (amended): for every registry and limits, acceptance at level `d`
depends only on the remaining depth `maxDepth - d`; provided no registered
field name collides with a combinator key, the combinator keys are omitted
entirely at levels at or beyond the ceiling, wrapping a document accepted
at depth `d < maxDepth` (with `d ≥ 1`) in one more layer of `$and` or
`$not` — and of `$or` provided `maxOrBranches ≥ 1` — is accepted at depth
`d - 1`, and exactly `maxDepth` layers of `$and` wrapping around a
ceiling-accepted field-only document are accepted from level 0 while
`maxDepth + 1` layers are rejected. -/
theorem c1_depth_boundary (fields : List FieldSpec) (L : Limits) :
    (∀ d dd : Nat, L.maxDepth - d = L.maxDepth - dd →
      createFilterSchema fields L d = createFilterSchema fields L dd) ∧
    (noCombinatorFields fields = true →
      ∀ (d : Nat) (D : Value), d < L.maxDepth → 1 ≤ d →
        createFilterSchema fields L d D = true →
        createFilterSchema fields L (d - 1) (wrapAnd D) = true ∧
        createFilterSchema fields L (d - 1) (wrapNot D) = true ∧
        (1 ≤ L.maxOrBranches → createFilterSchema fields L (d - 1) (wrapOr D) = true)) ∧
    (noCombinatorFields fields = true →
      ∀ (d : Nat) (w : Value), L.maxDepth ≤ d →
        createFilterSchema fields L d (.obj [("$and", w)]) = false ∧
        createFilterSchema fields L d (.obj [("$or", w)]) = false ∧
        createFilterSchema fields L d (.obj [("$not", w)]) = false) ∧
    (noCombinatorFields fields = true →
      ∀ D : Value, createFilterSchema fields L L.maxDepth D = true →
        createFilterSchema fields L 0 (wrapAndN L.maxDepth D) = true ∧
        createFilterSchema fields L 0 (wrapAndN (L.maxDepth + 1) D) = false) := by
  refine ⟨?_, ?_, ?_, ?_⟩
  · intro d dd h
    rw [createFilterSchema_eq, createFilterSchema_eq, h]
  · intro hnc d D hd h1 hD
    have hand := findField_combinator_none fields "$and" hnc (by decide)
    have hor := findField_combinator_none fields "$or" hnc (by decide)
    have hnot := findField_combinator_none fields "$not" hnc (by decide)
    have hr : L.maxDepth - (d - 1) = (L.maxDepth - d) + 1 := by omega
    rw [createFilterSchema_eq] at hD
    refine ⟨?_, ?_, fun hb => ?_⟩
    · rw [createFilterSchema_eq, hr,
        show wrapAnd D = Value.obj [("$and", Value.arr [D])] from rfl,
        checkRemaining_andArray fields L _ [D] hand]
      simp [hD]
    · rw [createFilterSchema_eq, hr,
        show wrapNot D = Value.obj [("$not", D)] from rfl,
        checkRemaining_notObj fields L _ D hnot]
      exact hD
    · rw [createFilterSchema_eq, hr,
        show wrapOr D = Value.obj [("$or", Value.arr [D])] from rfl,
        checkRemaining_orArray fields L _ [D] hor]
      simp [hD, hb]
  · intro hnc d w hd
    have h0 : L.maxDepth - d = 0 := by omega
    have hand := findField_combinator_none fields "$and" hnc (by decide)
    have hor := findField_combinator_none fields "$or" hnc (by decide)
    have hnot := findField_combinator_none fields "$not" hnc (by decide)
    refine ⟨?_, ?_, ?_⟩ <;> rw [createFilterSchema_eq, h0] <;>
      simp [checkRemaining, checkBase, checkFieldEntry, hand, hor, hnot]
  · intro hnc D hD
    have hand := findField_combinator_none fields "$and" hnc (by decide)
    rw [createFilterSchema_eq, Nat.sub_self] at hD
    constructor
    · rw [createFilterSchema_eq, Nat.sub_zero]
      have hiter := checkRemaining_wrapAndN fields L hand L.maxDepth 0 D
      rw [Nat.zero_add] at hiter
      rw [hiter]
      exact hD
    · rw [createFilterSchema_eq, Nat.sub_zero, wrapAndN_succ_inner]
      have hiter := checkRemaining_wrapAndN fields L hand L.maxDepth 0 (wrapAnd D)
      rw [Nat.zero_add] at hiter
      rw [hiter]
      simp [checkRemaining, checkBase, wrapAnd, checkFieldEntry, hand]

/-- Witness for C1 (amended) at a concrete configuration: with an empty
registry and `maxDepth = 2`, wrapping the empty document accepted at depth
1 in `$and` is accepted at depth 0, exactly 2 layers of `$and` wrapping
are accepted from level 0, and 3 layers are rejected. -/
theorem c1_depth_boundary_witness :
    noCombinatorFields [] = true ∧
    createFilterSchema [] { maxDepth := 2 } 1 (.obj []) = true ∧
    createFilterSchema [] { maxDepth := 2 } 0 (wrapAnd (.obj [])) = true ∧
    createFilterSchema [] { maxDepth := 2 } 2 (.obj []) = true ∧
    createFilterSchema [] { maxDepth := 2 } 0 (wrapAndN 2 (.obj [])) = true ∧
    createFilterSchema [] { maxDepth := 2 } 0 (wrapAndN 3 (.obj [])) = false := by
  have h := c1_depth_boundary [] { maxDepth := 2 }
  have hacc : createFilterSchema [] { maxDepth := 2 } 1 (.obj []) = true := by
    rw [createFilterSchema_eq]; decide
  have hceil : createFilterSchema [] { maxDepth := 2 } 2 (.obj []) = true := by
    rw [createFilterSchema_eq]; decide
  refine ⟨rfl, hacc, ?_, hceil, ?_, ?_⟩
  · exact (h.2.1 rfl 1 (.obj []) (by decide) (by decide) hacc).1
  · exact (h.2.2.2 rfl (.obj []) hceil).1
  · exact (h.2.2.2 rfl (.obj []) hceil).2

/-- C3 as frozen is refuted at a configuration its universal quantification
over limits admits: with `maxOrBranches = 0` and zero registered fields,
the `$or` wrapping of an empty document is rejected. -/
theorem c3_counterexample :
    createFilterSchema [] { maxOrBranches := 0 } 0 (wrapOr (.obj [])) = false := by
  rw [createFilterSchema_eq]; decide

/-- C3 (amended): the validator is whitelist-only and closed-world — a
document containing a key that is neither a registered field name nor a
combinator permitted at the current level is rejected; the empty document
is accepted at every level; empty `$and`/`$or` arrays are accepted at
levels below the ceiling where those keys are permitted; with zero
registered fields, `$and`/`$not` wrappings of the empty document are
accepted below the ceiling, `$or` wrappings additionally require
`maxOrBranches ≥ 1`, and every non-combinator key is rejected. -/
theorem c3_whitelist_closed_world (fields : List FieldSpec) (L : Limits) :
    (∀ d, createFilterSchema fields L d (.obj []) = true) ∧
    (∀ d, d < L.maxDepth → findField fields "$and" = none →
      createFilterSchema fields L d (.obj [("$and", .arr [])]) = true) ∧
    (∀ d, d < L.maxDepth → findField fields "$or" = none →
      createFilterSchema fields L d (.obj [("$or", .arr [])]) = true) ∧
    (∀ (d : Nat) (key : String) (value : Value) (entries : List (String × Value)),
      (key, value) ∈ entries → findField fields key = none →
      (L.maxDepth ≤ d ∨ (key ≠ "$and" ∧ key ≠ "$or" ∧ key ≠ "$not")) →
      createFilterSchema fields L d (.obj entries) = false) ∧
    (∀ d, d < L.maxDepth →
      createFilterSchema [] L d (wrapAnd (.obj [])) = true ∧
      createFilterSchema [] L d (wrapNot (.obj [])) = true ∧
      (1 ≤ L.maxOrBranches → createFilterSchema [] L d (wrapOr (.obj [])) = true)) ∧
    (∀ (d : Nat) (key : String) (value : Value) (entries : List (String × Value)),
      (key, value) ∈ entries → isCombinatorKey key = false →
      createFilterSchema [] L d (.obj entries) = false) := by
  refine ⟨?_, ?_, ?_, ?_, ?_, ?_⟩
  · intro d
    rw [createFilterSchema_eq]
    exact checkRemaining_empty fields L _
  · intro d hd h
    have hr : L.maxDepth - d = (L.maxDepth - (d + 1)) + 1 := by omega
    rw [createFilterSchema_eq, hr, checkRemaining_andArray fields L _ [] h]
    rfl
  · intro d hd h
    have hr : L.maxDepth - d = (L.maxDepth - (d + 1)) + 1 := by omega
    rw [createFilterSchema_eq, hr, checkRemaining_orArray fields L _ [] h]
    simp
  · exact fun d key value entries hmem hff hcase =>
      unregistered_key_rejected fields L d key value entries hmem hff hcase
  · intro d hd
    have hr : L.maxDepth - d = (L.maxDepth - (d + 1)) + 1 := by omega
    refine ⟨?_, ?_, fun hb => ?_⟩
    · rw [createFilterSchema_eq, hr,
        show wrapAnd (.obj []) = Value.obj [("$and", Value.arr [.obj []])] from rfl,
        checkRemaining_andArray [] L _ [.obj []] rfl]
      simp [checkRemaining_empty]
    · rw [createFilterSchema_eq, hr,
        show wrapNot (.obj []) = Value.obj [("$not", Value.obj [])] from rfl,
        checkRemaining_notObj [] L _ (.obj []) rfl]
      exact checkRemaining_empty [] L _
    · rw [createFilterSchema_eq, hr,
        show wrapOr (.obj []) = Value.obj [("$or", Value.arr [.obj []])] from rfl,
        checkRemaining_orArray [] L _ [.obj []] rfl]
      simp [checkRemaining_empty, hb]
  · intro d key value entries hmem hkey
    have hne : key ≠ "$and" ∧ key ≠ "$or" ∧ key ≠ "$not" := by
      simp [isCombinatorKey] at hkey
      exact ⟨hkey.1.1, hkey.1.2, hkey.2⟩
    exact unregistered_key_rejected [] L d key value entries hmem rfl (Or.inr hne)

/-- Witness for C3 (amended) at concrete inputs: the empty document is
accepted at depth 0; with only `name` registered, the unregistered key
`age` is rejected; on the empty registry the field key `name` is
rejected. -/
theorem c3_whitelist_closed_world_witness :
    createFilterSchema [{ field := "name", type := .string }] {} 0 (.obj []) = true ∧
    createFilterSchema [{ field := "name", type := .string }] {} 0
      (.obj [("age", .num 1)]) = false ∧
    createFilterSchema [] {} 0 (.obj [("name", .str "x")]) = false := by
  refine ⟨?_, ?_, ?_⟩
  · exact (c3_whitelist_closed_world [{ field := "name", type := .string }] {}).1 0
  · exact (c3_whitelist_closed_world [{ field := "name", type := .string }] {}).2.2.2.1
      0 "age" (.num 1) [("age", .num 1)] (List.mem_singleton_self _) rfl
      (Or.inr ⟨by decide, by decide, by decide⟩)
  · exact (c3_whitelist_closed_world [] {}).2.2.2.2.2 0 "name" (.str "x")
      [("name", .str "x")] (List.mem_singleton_self _) (by decide)

/-- C5: at every nesting level `d < maxDepth` (not only the top level), a
document whose `$or` key holds an array of at most `maxOrBranches`
sub-documents each valid at level `d + 1` is accepted exactly when the
length bound holds, and any document containing a `$or` array of length
`maxOrBranches + 1` is rejected. -/
theorem c5_or_branch_limit (fields : List FieldSpec) (L : Limits) (d : Nat)
    (docs : List Value) (hor : findField fields "$or" = none) (hd : d < L.maxDepth) :
    (docs.all (createFilterSchema fields L (d + 1)) = true →
      createFilterSchema fields L d (.obj [("$or", .arr docs)]) =
        decide (docs.length ≤ L.maxOrBranches)) ∧
    (docs.length = L.maxOrBranches + 1 →
      ∀ entries, ("$or", .arr docs) ∈ entries →
        createFilterSchema fields L d (.obj entries) = false) := by
  have hr : L.maxDepth - d = (L.maxDepth - (d + 1)) + 1 := by omega
  constructor
  · intro hall
    simp only [createFilterSchema_eq] at hall ⊢
    rw [hr, checkRemaining_orArray fields L _ docs hor, hall]
    simp
  · intro hlen entries hmem
    rw [createFilterSchema_eq, hr]
    simp only [checkRemaining, checkStep]
    have hfail : decide (docs.length ≤ L.maxOrBranches) = false := by
      rw [hlen]; simp
    have hall :
        entries.all
          (checkStepEntry fields L (checkRemaining fields L (L.maxDepth - (d + 1)))) =
          false :=
      List.all_eq_false.mpr ⟨("$or", .arr docs), hmem, by
        simp [checkStepEntry, hor, hfail]⟩
    rw [hall]
    simp

/-- Witness for C5 at a concrete nested level: with `maxOrBranches = 1` and
`maxDepth = 2`, at level 1 a one-branch `$or` is accepted and a two-branch
`$or` is rejected. -/
theorem c5_or_branch_limit_witness :
    createFilterSchema [] { maxDepth := 2, maxOrBranches := 1 } 1
      (.obj [("$or", .arr [.obj []])]) = decide ((1 : Nat) ≤ 1) ∧
    createFilterSchema [] { maxDepth := 2, maxOrBranches := 1 } 1
      (.obj [("$or", .arr [.obj [], .obj []])]) = false := by
  constructor
  · exact (c5_or_branch_limit [] { maxDepth := 2, maxOrBranches := 1 } 1 [.obj []]
      rfl (by decide)).1 (by simp only [createFilterSchema_eq]; decide)
  · exact (c5_or_branch_limit [] { maxDepth := 2, maxOrBranches := 1 } 1
      [.obj [], .obj []] rfl (by decide)).2 (by decide) _ (List.mem_singleton_self _)

theorem filter_noncomb_of_registered (fields : List FieldSpec) (L : Limits)
    (entries : List (String × Value)) (hnc : noCombinatorFields fields = true)
    (hstruct : entries.all (fun e => checkFieldEntry fields L e.1 e.2) = true) :
    entries.filter (fun e => !isCombinatorKey e.1) = entries := by
  rw [List.filter_eq_self]
  intro e hmem
  have he := List.all_eq_true.mp hstruct e hmem
  cases hff : findField fields e.1 with
  | none => simp [checkFieldEntry, hff] at he
  | some f =>
      obtain ⟨hf_mem, hf_field⟩ := findField_some_spec fields e.1 f hff
      have hf := List.all_eq_true.mp hnc f hf_mem
      rw [hf_field] at hf
      simpa using hf

/-- C6: at every nesting level, once every present entry passes its
per-key structural check, acceptance is exactly the bound
`#(non-combinator keys) ≤ maxConditions`: the keys named `$and`, `$or`,
`$not` are excluded from the count below the ceiling (and cannot occur at
the ceiling when the registry avoids combinator names), and any document
with `maxConditions + 1` field keys is rejected outright. -/
theorem c6_condition_count (fields : List FieldSpec) (L : Limits) (d : Nat)
    (entries : List (String × Value)) (hnc : noCombinatorFields fields = true) :
    (d < L.maxDepth →
      entries.all (checkStepEntry fields L (createFilterSchema fields L (d + 1))) = true →
      createFilterSchema fields L d (.obj entries) =
        decide ((entries.filter fun e => !isCombinatorKey e.1).length ≤ L.maxConditions)) ∧
    (L.maxDepth ≤ d →
      entries.all (fun e => checkFieldEntry fields L e.1 e.2) = true →
      createFilterSchema fields L d (.obj entries) =
        decide ((entries.filter fun e => !isCombinatorKey e.1).length ≤ L.maxConditions)) ∧
    (d < L.maxDepth →
      (entries.filter fun e => !isCombinatorKey e.1).length = L.maxConditions + 1 →
      createFilterSchema fields L d (.obj entries) = false) := by
  refine ⟨?_, ?_, ?_⟩
  · intro hd hstruct
    have hr : L.maxDepth - d = (L.maxDepth - (d + 1)) + 1 := by omega
    simp only [createFilterSchema_eq] at hstruct ⊢
    rw [hr]
    simp only [checkRemaining, checkStep]
    rw [hstruct]
    simp
  · intro hd hstruct
    have hr : L.maxDepth - d = 0 := by omega
    rw [createFilterSchema_eq, hr]
    simp only [checkRemaining, checkBase]
    rw [hstruct, filter_noncomb_of_registered fields L entries hnc hstruct]
    simp
  · intro hd hlen
    have hr : L.maxDepth - d = (L.maxDepth - (d + 1)) + 1 := by omega
    rw [createFilterSchema_eq, hr]
    simp only [checkRemaining, checkStep]
    have hfail :
        decide ((entries.filter fun e => !isCombinatorKey e.1).length ≤ L.maxConditions) =
          false := by
      rw [hlen]; simp
    rw [hfail]
    simp

/-- Witness for C6 at concrete inputs: with `maxConditions = 2`, a document
with two field keys plus a `$and` key is accepted (the combinator does not
count), and a document with three field keys is rejected. -/
theorem c6_condition_count_witness :
    createFilterSchema
      [{ field := "a", type := .string }, { field := "b", type := .string },
        { field := "c", type := .string }] { maxConditions := 2 } 0
      (.obj [("a", .str "x"), ("b", .str "y"), ("$and", .arr [])]) =
      decide ((2 : Nat) ≤ 2) ∧
    createFilterSchema
      [{ field := "a", type := .string }, { field := "b", type := .string },
        { field := "c", type := .string }] { maxConditions := 2 } 0
      (.obj [("a", .str "x"), ("b", .str "y"), ("c", .str "z")]) = false := by
  constructor
  · exact (c6_condition_count
      [{ field := "a", type := .string }, { field := "b", type := .string },
        { field := "c", type := .string }] { maxConditions := 2 } 0
      [("a", .str "x"), ("b", .str "y"), ("$and", .arr [])] rfl).1 (by decide)
      (by simp only [createFilterSchema_eq]; decide)
  · exact (c6_condition_count
      [{ field := "a", type := .string }, { field := "b", type := .string },
        { field := "c", type := .string }] { maxConditions := 2 } 0
      [("a", .str "x"), ("b", .str "y"), ("c", .str "z")] rfl).2.2 (by decide) (by decide)

/-- C10 (implicit): unlike `$or`, the `$and` combinator has no branch-count
limit — at every level `d < maxDepth`, a `$and` array of any number of
sub-documents each valid at level `d + 1` is accepted; no configured limit
bounds the number of `$and` elements. -/
theorem c10_and_unbounded (fields : List FieldSpec) (L : Limits) (d : Nat)
    (docs : List Value) (hand : findField fields "$and" = none) (hd : d < L.maxDepth)
    (hall : docs.all (createFilterSchema fields L (d + 1)) = true) :
    createFilterSchema fields L d (.obj [("$and", .arr docs)]) = true := by
  have hr : L.maxDepth - d = (L.maxDepth - (d + 1)) + 1 := by omega
  simp only [createFilterSchema_eq] at hall ⊢
  rw [hr, checkRemaining_andArray fields L _ docs hand, hall]

/-- Witness for C10 at a concrete input: with every limit set to its
minimum (`maxConditions = maxOrBranches = maxArrayLength = 0`,
`maxDepth = 1`), a `$and` array with three branches is accepted. -/
theorem c10_and_unbounded_witness :
    createFilterSchema []
      { maxDepth := 1, maxConditions := 0, maxOrBranches := 0, maxArrayLength := 0 } 0
      (.obj [("$and", .arr [.obj [], .obj [], .obj []])]) = true :=
  c10_and_unbounded []
    { maxDepth := 1, maxConditions := 0, maxOrBranches := 0, maxArrayLength := 0 } 0
    [.obj [], .obj [], .obj []] rfl (by decide)
    (by simp only [createFilterSchema_eq]; decide)

theorem splitDot_author_name : splitDot "author.name" = ["author", "name"] := rfl

theorem splitDot_abc : splitDot "a.b.c" = ["a", "b", "c"] := rfl

/-- The registry of the dotted-path round-trip: one string field
`authorName` rewritten to the path `author.name`. -/
def c7Fields : List FieldSpec :=
  [{ field := "authorName", type := .string, replacement := .path "author.name" }]

/-- C7: with `authorName` declared with replacement `author.name`, parsing
`{authorName: "John"}` yields exactly `{author: {name: "John"}}`, and the
same rewrite is produced identically inside `$and`, `$or` and `$not`
wrappers; the original un-decomposed operand (an operator object included)
is written at the destination path; `setNestedValue` creates missing
intermediate objects, overwrites `null` and primitive (non-object)
intermediates with fresh objects, and preserves existing sibling keys both
at the destination and at the root. -/
theorem c7_dotted_path_roundtrip :
    (parseFilterQuery c7Fields {} (.obj [("authorName", .str "John")]) =
      some (.obj [("author", .obj [("name", .str "John")])])) ∧
    (parseFilterQuery c7Fields {}
        (.obj [("$and", .arr [.obj [("authorName", .str "John")]])]) =
      some (.obj [("$and", .arr [.obj [("author", .obj [("name", .str "John")])]])])) ∧
    (parseFilterQuery c7Fields {}
        (.obj [("$or", .arr [.obj [("authorName", .str "John")]])]) =
      some (.obj [("$or", .arr [.obj [("author", .obj [("name", .str "John")])]])])) ∧
    (parseFilterQuery c7Fields {} (.obj [("$not", .obj [("authorName", .str "John")])]) =
      some (.obj [("$not", .obj [("author", .obj [("name", .str "John")])])])) ∧
    (parseFilterQuery c7Fields {} (.obj [("authorName", .obj [("$ne", .str "John")])]) =
      some (.obj [("author", .obj [("name", .obj [("$ne", .str "John")])])])) ∧
    (∀ v, setNestedValue [] "a.b.c" v = [("a", .obj [("b", .obj [("c", v)])])]) ∧
    (∀ v, setNestedValue [("author", .null)] "author.name" v =
      [("author", .obj [("name", v)])]) ∧
    (∀ v, setNestedValue [("author", .str "s")] "author.name" v =
      [("author", .obj [("name", v)])]) ∧
    (∀ v w, setNestedValue [("author", .obj [("age", w)])] "author.name" v =
      [("author", .obj [("age", w), ("name", v)])]) ∧
    (∀ v w, setNestedValue [("existing", w)] "author.name" v =
      [("existing", w), ("author", .obj [("name", v)])]) := by
  refine ⟨?_, ?_, ?_, ?_, ?_, ?_, ?_, ?_, ?_, ?_⟩
  · have hval : createFilterSchema c7Fields {} 0 (.obj [("authorName", .str "John")]) =
        true := by
      rw [createFilterSchema_eq]; decide
    rw [parseFilterQuery, if_pos hval]
    simp +decide [c7Fields, hasTransforms, dedupFields, mapSetField, hasRewrite,
      applyReplacements, applyEntries, applyList, fieldStep, replacementFor, findField,
      setNestedValue, setNestedParts, objSet, objGet, isObjectTypeof, splitDot_author_name]
  · have hval : createFilterSchema c7Fields {} 0
        (.obj [("$and", .arr [.obj [("authorName", .str "John")]])]) = true := by
      rw [createFilterSchema_eq]; decide
    rw [parseFilterQuery, if_pos hval]
    simp +decide [c7Fields, hasTransforms, dedupFields, mapSetField, hasRewrite,
      applyReplacements, applyEntries, applyList, fieldStep, replacementFor, findField,
      setNestedValue, setNestedParts, objSet, objGet, isObjectTypeof, splitDot_author_name]
  · have hval : createFilterSchema c7Fields {} 0
        (.obj [("$or", .arr [.obj [("authorName", .str "John")]])]) = true := by
      rw [createFilterSchema_eq]; decide
    rw [parseFilterQuery, if_pos hval]
    simp +decide [c7Fields, hasTransforms, dedupFields, mapSetField, hasRewrite,
      applyReplacements, applyEntries, applyList, fieldStep, replacementFor, findField,
      setNestedValue, setNestedParts, objSet, objGet, isObjectTypeof, splitDot_author_name]
  · have hval : createFilterSchema c7Fields {} 0
        (.obj [("$not", .obj [("authorName", .str "John")])]) = true := by
      rw [createFilterSchema_eq]; decide
    rw [parseFilterQuery, if_pos hval]
    simp +decide [c7Fields, hasTransforms, dedupFields, mapSetField, hasRewrite,
      applyReplacements, applyEntries, applyList, fieldStep, replacementFor, findField,
      setNestedValue, setNestedParts, objSet, objGet, isObjectTypeof, splitDot_author_name]
  · have hval : createFilterSchema c7Fields {} 0
        (.obj [("authorName", .obj [("$ne", .str "John")])]) = true := by
      rw [createFilterSchema_eq]; decide
    rw [parseFilterQuery, if_pos hval]
    simp +decide [c7Fields, hasTransforms, dedupFields, mapSetField, hasRewrite,
      applyReplacements, applyEntries, applyList, fieldStep, replacementFor, findField,
      setNestedValue, setNestedParts, objSet, objGet, isObjectTypeof, splitDot_author_name]
  · intro v
    simp +decide [setNestedValue, splitDot_abc, setNestedParts, objSet, objGet]
  · intro v
    simp +decide [setNestedValue, splitDot_author_name, setNestedParts, objSet, objGet]
  · intro v
    simp +decide [setNestedValue, splitDot_author_name, setNestedParts, objSet, objGet]
  · intro v w
    simp +decide [setNestedValue, splitDot_author_name, setNestedParts, objSet, objGet]
  · intro v w
    simp +decide [setNestedValue, splitDot_author_name, setNestedParts, objSet, objGet]

/-- The callback stated by the claim for field `keyword`:
`({value}) => ({title: value})` — it receives the operator but ignores it. -/
def keywordCallback : String → String → Value → List (String × Value) :=
  fun _ _ value => [("title", value)]

/-- Registry with the operator-ignoring callback on `keyword`. -/
def c8KeywordFields : List FieldSpec :=
  [{ field := "keyword", type := .string, replacement := .callback keywordCallback }]

/-- An operator-aware callback, as in the accompanying test suite:
`({operator, value}) => operator === "$eq" ? {title: value}
: {title: {[operator]: value}}`. -/
def searchCallback : String → String → Value → List (String × Value) :=
  fun _ operator value =>
    if operator = "$eq" then [("title", value)] else [("title", .obj [(operator, value)])]

/-- Registry with the operator-aware callback on `search`. -/
def c8SearchFields : List FieldSpec :=
  [{ field := "search", type := .string, replacement := .callback searchCallback }]

/-- A callback on a `date` field, used to exhibit the bare-`Date` corner. -/
def whenCallback : String → String → Value → List (String × Value) :=
  fun _ _ value => [("whenAt", value)]

/-- Registry with a callback rewrite on the `date` field `when`. -/
def c8WhenFields : List FieldSpec :=
  [{ field := "when", type := .date, replacement := .callback whenCallback }]

/-- C8 as frozen is refuted on two points.  First, with the stated
callback `({value}) => ({title: value})` on `keyword`, parsing
`{keyword: {$ne: "x"}}` yields `{title: "x"}` — the callback receives the
operator but ignores it, so the output is not the claimed
`{title: {$ne: "x"}}`.  Second, a bare native `Date` operand has JS
`typeof "object"` and no own enumerable properties, so `parseFieldValue`
extracts no `(operator, value)` pairs and the callback is never invoked:
the field is dropped instead of producing the implicit `($eq, value)`
invocation the claim requires for a direct bare value. -/
theorem c8_counterexample :
    (parseFilterQuery c8KeywordFields {} (.obj [("keyword", .obj [("$ne", .str "x")])]) =
      some (.obj [("title", .str "x")])) ∧
    (Value.obj [("title", .str "x")] ≠ Value.obj [("title", .obj [("$ne", .str "x")])]) ∧
    (parseFilterQuery c8WhenFields {} (.obj [("when", .date 0)]) = some (.obj [])) ∧
    (parseFieldValue (.date 0) = []) ∧
    (parseFieldValue (.date 0) ≠ [("$eq", .date 0)]) := by
  refine ⟨?_, ?_, ?_, rfl, ?_⟩
  · have hval : createFilterSchema c8KeywordFields {} 0
        (.obj [("keyword", .obj [("$ne", .str "x")])]) = true := by
      rw [createFilterSchema_eq]; decide
    rw [parseFilterQuery, if_pos hval]
    simp +decide [c8KeywordFields, keywordCallback, hasTransforms, dedupFields,
      mapSetField, hasRewrite, applyReplacements, applyEntries, applyList, fieldStep,
      replacementFor, findField, parseFieldValue, isBarePrimitive, entriesOfValue,
      isOperator, operatorList, objAssign, objSet, isObjectTypeof]
  · simp
  · have hval : createFilterSchema c8WhenFields {} 0 (.obj [("when", .date 0)]) =
        true := by
      rw [createFilterSchema_eq]; decide
    rw [parseFilterQuery, if_pos hval]
    simp +decide [c8WhenFields, whenCallback, hasTransforms, dedupFields, mapSetField,
      hasRewrite, applyReplacements, applyEntries, applyList, fieldStep, replacementFor,
      findField, parseFieldValue, isBarePrimitive, entriesOfValue, isOperator,
      operatorList, objAssign, objSet, isObjectTypeof]
  · simp [parseFieldValue, isBarePrimitive, entriesOfValue]

/-- C8 (amended): a callback rewrite is invoked once per `(operator, value)`
pair extracted by `parseFieldValue` and its outputs are shallow-merged in
encounter order, later pairs overwriting earlier keys; a direct bare
primitive (string, number, boolean) or `null` value yields the single
implicit pair `($eq, value)`, an operator object yields one pair per
operator key present, and a bare native `Date` yields no pairs (typeof
`"object"`, no enumerable properties), so its callback is never invoked.
With the operator-ignoring callback `({value}) => ({title: value})` on
`keyword`, parsing `{keyword: "x"}` yields `{title: "x"}` and parsing
`{keyword: {$ne: "x"}}` also yields `{title: "x"}`; preserving the
operator requires an operator-aware callback, with which parsing
`{search: {$ne: "x"}}` yields `{title: {$ne: "x"}}`. -/
theorem c8_callback_pairs :
    (∀ v, isBarePrimitive v = true → parseFieldValue v = [("$eq", v)]) ∧
    (∀ entries, (∀ e ∈ entries, isOperator e.1 = true) →
      parseFieldValue (.obj entries) = entries) ∧
    (parseFieldValue (.date 0) = []) ∧
    (parseFilterQuery c8KeywordFields {} (.obj [("keyword", .str "x")]) =
      some (.obj [("title", .str "x")])) ∧
    (parseFilterQuery c8KeywordFields {} (.obj [("keyword", .obj [("$ne", .str "x")])]) =
      some (.obj [("title", .str "x")])) ∧
    (parseFilterQuery c8SearchFields {} (.obj [("search", .obj [("$ne", .str "x")])]) =
      some (.obj [("title", .obj [("$ne", .str "x")])])) ∧
    (parseFilterQuery c8KeywordFields {}
        (.obj [("keyword", .obj [("$eq", .str "a"), ("$ne", .str "b")])]) =
      some (.obj [("title", .str "b")])) := by
  refine ⟨?_, ?_, rfl, ?_, ?_, ?_, ?_⟩
  · intro v hv
    rw [parseFieldValue, if_pos hv]
  · intro entries h
    rw [parseFieldValue, if_neg (by simp [isBarePrimitive])]
    simpa [entriesOfValue] using List.filter_eq_self.mpr h
  · have hval : createFilterSchema c8KeywordFields {} 0 (.obj [("keyword", .str "x")]) =
        true := by
      rw [createFilterSchema_eq]; decide
    rw [parseFilterQuery, if_pos hval]
    simp +decide [c8KeywordFields, keywordCallback, hasTransforms, dedupFields,
      mapSetField, hasRewrite, applyReplacements, applyEntries, applyList, fieldStep,
      replacementFor, findField, parseFieldValue, isBarePrimitive, entriesOfValue,
      isOperator, operatorList, objAssign, objSet, isObjectTypeof]
  · have hval : createFilterSchema c8KeywordFields {} 0
        (.obj [("keyword", .obj [("$ne", .str "x")])]) = true := by
      rw [createFilterSchema_eq]; decide
    rw [parseFilterQuery, if_pos hval]
    simp +decide [c8KeywordFields, keywordCallback, hasTransforms, dedupFields,
      mapSetField, hasRewrite, applyReplacements, applyEntries, applyList, fieldStep,
      replacementFor, findField, parseFieldValue, isBarePrimitive, entriesOfValue,
      isOperator, operatorList, objAssign, objSet, isObjectTypeof]
  · have hval : createFilterSchema c8SearchFields {} 0
        (.obj [("search", .obj [("$ne", .str "x")])]) = true := by
      rw [createFilterSchema_eq]; decide
    rw [parseFilterQuery, if_pos hval]
    simp +decide [c8SearchFields, searchCallback, hasTransforms, dedupFields,
      mapSetField, hasRewrite, applyReplacements, applyEntries, applyList, fieldStep,
      replacementFor, findField, parseFieldValue, isBarePrimitive, entriesOfValue,
      isOperator, operatorList, objAssign, objSet, isObjectTypeof]
  · have hval : createFilterSchema c8KeywordFields {} 0
        (.obj [("keyword", .obj [("$eq", .str "a"), ("$ne", .str "b")])]) = true := by
      rw [createFilterSchema_eq]; decide
    rw [parseFilterQuery, if_pos hval]
    simp +decide [c8KeywordFields, keywordCallback, hasTransforms, dedupFields,
      mapSetField, hasRewrite, applyReplacements, applyEntries, applyList, fieldStep,
      replacementFor, findField, parseFieldValue, isBarePrimitive, entriesOfValue,
      isOperator, operatorList, objAssign, objSet, isObjectTypeof]

/-- Witness for C8 (amended) at concrete inputs: the bare string `"x"` is a
primitive yielding the single implicit pair, and the operator object
`{$ne: "x"}` yields exactly its own operator entry. -/
theorem c8_callback_pairs_witness :
    isBarePrimitive (.str "x") = true ∧
    parseFieldValue (.str "x") = [("$eq", .str "x")] ∧
    (∀ e ∈ [(("$ne" : String), Value.str "x")], isOperator e.1 = true) ∧
    parseFieldValue (.obj [("$ne", .str "x")]) = [("$ne", .str "x")] := by
  refine ⟨rfl, c8_callback_pairs.1 (.str "x") rfl, by decide, ?_⟩
  exact c8_callback_pairs.2.1 [("$ne", .str "x")] (by decide)

end FilterQuerySchema
